import Mathlib

/-!
Shallow embedding of `src/Exscript/workqueue/MainLoop.py` (the scheduler
core of the Exscript work queue) and proofs about its specification.

Modelling conventions:
* Python `deque`/`list` become Lean `List`, with the head of the list as
  the left end (`append` = `· ++ [x]`, `appendleft` = `x :: ·`,
  `popleft` = head, `remove` = `List.erase`, which removes the first
  occurrence just as Python does).
* An Action is opaque: the scheduler only uses its `name`, its hash and
  its identity.  `name` is `Option String` because the Python code
  explicitly handles `None` names (`get_first_job_from_name`); `ident`
  gives Actions their object identity.
* Python assertions / uncaught exceptions become `Except PyError` or an
  explicit `Option PyError` component.
* `MainLoop.py` binds exactly the module-level names listed in
  `moduleBindings` (its imports plus the class itself); `copy` is not
  among them and is not a Python builtin, so evaluating the name `copy`
  raises `NameError` — this is modelled by the lookup in
  `on_job_completed`.
* The threaded coordinator (`run`) is modelled two ways: `run_iteration`
  is one iteration of the loop body as written, and `apply_label` /
  `run_trace` give an interleaving semantics where each label is one
  atomic monitor-protected step (an API call, one admission by the loop,
  one reap of a finished job).
-/

namespace Exscript

/-- An opaque Action as the scheduler sees it: a (possibly absent) name,
a hash value (what `action.__hash__()` returns) and an identity. -/
structure Action where
  name : Option String
  hash : Int
  ident : Nat
deriving DecidableEq

/-- A Job as created by `MainLoop._create_job`: it binds an Action, caches
`action.name`, carries the retry budget `times`, the accumulated failure
count and the outcome of its last run (`exc_info` true means the run
failed). -/
structure Job where
  action : Action
  name : Option String
  times : Nat
  failures : Nat
  exc_info : Bool
deriving DecidableEq

/-- The monitor state of `MainLoop.__init__` (lines 22–39): the pending
queue, the force-start list, the running jobs, the sleeping actions, the
pause and shutdown flags and the concurrency limit. -/
structure MainLoop where
  queue : List Job
  force_start : List Job
  running_jobs : List Job
  sleeping_actions : List Action
  paused : Bool
  shutdown_now : Bool
  max_threads : Int
deriving DecidableEq

/-- The freshly constructed state: empty collections, `paused = True`,
`shutdown_now = False`, `max_threads = 1`. -/
def initMainLoop : MainLoop :=
  { queue := [], force_start := [], running_jobs := [], sleeping_actions := []
    paused := true, shutdown_now := false, max_threads := 1 }

/-- The five events the scheduler fires. -/
inductive WQEvent
  | job_started (a : Action)
  | job_error (a : Action)
  | job_succeeded (a : Action)
  | job_aborted (a : Action)
  | queue_empty
deriving DecidableEq

/-- Uncaught Python exceptions relevant to the embedding. -/
inductive PyError
  | nameError (n : String)
  | assertionError
deriving DecidableEq

/-- The names bound at module scope of `MainLoop.py`: its imports
(lines 15–20: `threading`, `gc`, `chain`, `defaultdict`, `deque`,
`Event`, `Job`) and the class defined in the module.  `copy` is absent,
and `copy` is not a Python builtin either. -/
def moduleBindings : List String :=
  ["threading", "gc", "chain", "defaultdict", "deque", "Event", "Job", "MainLoop"]

/-- `chain(self.queue, self.force_start, self.running_jobs)` — the order
in which the three containers are scanned throughout the module. -/
def allJobs (st : MainLoop) : List Job :=
  st.queue ++ st.force_start ++ st.running_jobs

/-- `_create_job` (lines 67–70): a new Job bound to `action`, caching
`action.name`, with the given retry budget; `failures` starts at 0 and no
outcome is recorded yet. -/
def createJob (action : Action) (times : Nat) : Job :=
  { action := action, name := action.name, times := times, failures := 0
    exc_info := false }

/-- `enqueue` (lines 72–75): append a new Job to the tail of the queue. -/
def enqueue (st : MainLoop) (action : Action) (times : Nat) : MainLoop :=
  { st with queue := st.queue ++ [createJob action times] }

/-- `get_first_job_from_name` (lines 191–197): `None` for a `None` name,
otherwise the first Job in `chain(queue, force_start, running_jobs)`
whose cached name equals the argument. -/
def get_first_job_from_name (st : MainLoop) (job_name : Option String) : Option Job :=
  match job_name with
  | none => none
  | some n => (allJobs st).find? (fun j => j.name == some n)

/-- `enqueue_or_ignore` (lines 77–86): append a new Job only when
`get_first_job_from_name(action.name)` finds nothing; return whether a
Job was enqueued. -/
def enqueue_or_ignore (st : MainLoop) (action : Action) (times : Nat) :
    Bool × MainLoop :=
  match get_first_job_from_name st action.name with
  | none => (true, { st with queue := st.queue ++ [createJob action times] })
  | some _ => (false, st)

/-- `priority_enqueue` (lines 88–95): append to `force_start` when the
flag is set, otherwise push onto the head of the queue. -/
def priority_enqueue (st : MainLoop) (action : Action) (force : Bool)
    (times : Nat) : MainLoop :=
  let job := createJob action times
  if force then { st with force_start := st.force_start ++ [job] }
  else { st with queue := job :: st.queue }

/-- `priority_enqueue_or_raise` (lines 97–125): no-op returning `False`
when a same-named Job is in `force_start` or `running_jobs`; otherwise
remove the first same-named queued Job if any and reuse its bound Action
for the replacement; place the new Job per the flag; return `True`
exactly when no queued entry existed. -/
def priority_enqueue_or_raise (st : MainLoop) (action : Action) (force : Bool)
    (times : Nat) : Bool × MainLoop :=
  if (st.force_start ++ st.running_jobs).any (fun j => j.name == action.name) then
    (false, st)
  else
    match st.queue.find? (fun j => j.name == action.name) with
    | some existing =>
        let st1 := { st with queue := st.queue.erase existing }
        let job := createJob existing.action times
        (false,
          if force then { st1 with force_start := st1.force_start ++ [job] }
          else { st1 with queue := job :: st1.queue })
    | none =>
        let job := createJob action times
        (true,
          if force then { st with force_start := st.force_start ++ [job] }
          else { st with queue := job :: st.queue })

/-- `pause` (lines 127–130). -/
def pause (st : MainLoop) : MainLoop := { st with paused := true }

/-- `resume` (lines 132–135). -/
def resume (st : MainLoop) : MainLoop := { st with paused := false }

/-- `get_running_actions` (lines 183–184). -/
def get_running_actions (st : MainLoop) : List Action :=
  st.running_jobs.map (·.action)

/-- `in_progress` (lines 180–181): the action is bound to some running job. -/
def in_progress (st : MainLoop) (a : Action) : Bool :=
  (get_running_actions st).contains a

/-- `in_queue` (lines 176–178): the action is bound to some job in
`queue`, `force_start` or `running_jobs`. -/
def in_queue (st : MainLoop) (a : Action) : Bool :=
  ((allJobs st).map (·.action)).contains a

/-- `get_queue_length` (lines 186–189). -/
def get_queue_length (st : MainLoop) : Nat :=
  st.queue.length + st.force_start.length + st.running_jobs.length

/-- `_action_sleep_notify` (lines 45–49): asserts `in_progress(action)`,
then appends the action to `sleeping_actions`. -/
def action_sleep_notify (st : MainLoop) (a : Action) : Except PyError MainLoop :=
  if in_progress st a then
    .ok { st with sleeping_actions := st.sleeping_actions ++ [a] }
  else .error .assertionError

/-- `_action_wake_notify` (lines 51–56): asserts `in_progress(action)` and
`action in sleeping_actions`, then removes the first occurrence. -/
def action_wake_notify (st : MainLoop) (a : Action) : Except PyError MainLoop :=
  if in_progress st a then
    if st.sleeping_actions.contains a then
      .ok { st with sleeping_actions := st.sleeping_actions.erase a }
    else .error .assertionError
  else .error .assertionError

/-- `set_max_threads` (lines 61–65): asserts only `max_threads is not
None`, then stores `int(max_threads)` — any integer, negative included. -/
def set_max_threads (st : MainLoop) (mt : Option Int) : Except PyError MainLoop :=
  match mt with
  | none => .error .assertionError
  | some n => .ok { st with max_threads := n }

/-- `_get_action_from_hash` (lines 140–144): the action of the first job
in `chain(queue, force_start, running_jobs)` whose action has the given
hash, if any. -/
def get_action_from_hash (st : MainLoop) (thehash : Int) : Option Action :=
  ((allJobs st).find? (fun j => j.action.hash == thehash)).map (·.action)

/-- The argument of `wait_for`: either an integer hash or an Action. -/
inductive ActionOrHash
  | hsh (h : Int)
  | act (a : Action)

/-- The resolution step of `wait_for` (lines 146–153): an `int` argument
is looked up via `_get_action_from_hash`; `none` means `wait_for` returns
immediately, `some a` means it waits for `a`. -/
def wait_for_target (st : MainLoop) (x : ActionOrHash) : Option Action :=
  match x with
  | .hsh h => get_action_from_hash st h
  | .act a => some a

/-- The exit condition of `wait_for`'s wait loop (lines 156–157): the
loop runs `while self.in_queue(action)`, so it returns in a state exactly
when the action is no longer present. -/
def wait_for_returns (st : MainLoop) (a : Action) : Bool :=
  !(in_queue st a)

/-- The exit condition of `wait_until_done`'s wait loop (lines 163–166):
the loop runs `while self.get_queue_length() > 0`, so it returns in a
state exactly when the combined length is zero.  Note the predicate does
not mention `shutdown_now`. -/
def wait_until_done_returns (st : MainLoop) : Bool :=
  get_queue_length st == 0

/-- `shutdown` (lines 168–174): set the one-way `shutdown_now` flag, then
join every job in `running_jobs`; the second component lists the jobs
that are joined (those running at the time of the call). -/
def shutdown (st : MainLoop) : MainLoop × List Job :=
  ({ st with shutdown_now := true }, st.running_jobs)

/-- `_start_job` (lines 199–203): append the job to `running_jobs`, fire
`job_started_event(job.action)` and start the job's thread. -/
def start_job (st : MainLoop) (job : Job) : MainLoop × List WQEvent :=
  ({ st with running_jobs := st.running_jobs ++ [job] },
   [WQEvent.job_started job.action])

/-- What `copy(job)` would produce if `copy` were bound: a shallow copy
carrying the same action, name, `times` and accumulated `failures`. -/
def copyJob (j : Job) : Job := j

/-- `_on_job_completed` (lines 208–220).  On failure it fires
`job_error_event`, then either fires `job_aborted_event` (when
`failures >= times`) or calls `_restart_job` (line 205–206), which
evaluates the name `copy`; since `copy` is not in `moduleBindings` and is
not a builtin, that evaluation raises `NameError` after the `job_error`
event has already fired.  On success it fires `job_succeeded_event`.
The result is the new state, the events fired in order, and the exception
raised, if any. -/
def on_job_completed (st : MainLoop) (job : Job) :
    MainLoop × List WQEvent × Option PyError :=
  if job.exc_info then
    if job.failures ≥ job.times then
      (st, [WQEvent.job_error job.action, WQEvent.job_aborted job.action], none)
    else
      if moduleBindings.contains "copy" then
        let (st1, evs) := start_job st (copyJob job)
        (st1, WQEvent.job_error job.action :: evs, none)
      else
        (st, [WQEvent.job_error job.action], some (.nameError "copy"))
  else
    (st, [WQEvent.job_succeeded job.action], none)

/-- The notification phase of `_update_running_jobs` (lines 233–237):
`_on_job_completed` is called for each completed job in order, stopping
at the first uncaught exception. -/
def reap (st : MainLoop) : List Job → MainLoop × List WQEvent × Option PyError
  | [] => (st, [], none)
  | j :: rest =>
    match on_job_completed st j with
    | (st1, evs, some e) => (st1, evs, some e)
    | (st1, evs, none) =>
      let (st2, evs2, err) := reap st1 rest
      (st2, evs ++ evs2, err)

/-- `_update_running_jobs` (lines 222–238): keep the jobs whose thread is
still alive, then notify for each completed job.  Thread liveness is a
parameter (`alive`), as it is decided by the operating system. -/
def update_running_jobs (st : MainLoop) (alive : Job → Bool) :
    MainLoop × List WQEvent × Option PyError :=
  let still := st.running_jobs.filter alive
  let completed := st.running_jobs.filter (fun j => !alive j)
  reap { st with running_jobs := still } completed

/-- The force-start drain of `run` (lines 247–250): start every job of
the list in order. -/
def start_all (st : MainLoop) : List Job → MainLoop × List WQEvent
  | [] => (st, [])
  | j :: rest =>
    let (st1, evs) := start_job st j
    let (st2, evs2) := start_all st1 rest
    (st2, evs ++ evs2)

/-- The active count of `run` line 259: `len(running_jobs) -
len(sleeping_actions)`, an integer (it can be negative). -/
def active (st : MainLoop) : Int :=
  (st.running_jobs.length : Int) - (st.sleeping_actions.length : Int)

/-- The result of one pass through the body of `run` (lines 240–273):
the state at the next suspension point, the events fired, the exception
that escaped (if any), and whether the loop exited. -/
structure LoopStep where
  state : MainLoop
  events : List WQEvent
  raised : Option PyError
  exited : Bool
deriving DecidableEq

/-- One iteration of `run` (lines 242–271), starting at the `while` test:
exit when `shutdown_now`; reap completed jobs (propagating any uncaught
exception); fire `queue_empty_event` when the combined length is zero;
start and clear `force_start`; then either wait (queue empty, paused, or
`active >= max_threads`) or pop the queue head and start it. -/
def run_iteration (st : MainLoop) (alive : Job → Bool) : LoopStep :=
  if st.shutdown_now then ⟨st, [], none, true⟩
  else
    match update_running_jobs st alive with
    | (st1, evs1, some e) => ⟨st1, evs1, some e, false⟩
    | (st1, evs1, none) =>
      let evs2 := if get_queue_length st1 == 0 then [WQEvent.queue_empty] else []
      let (st2, evs3) := start_all { st1 with force_start := [] } st1.force_start
      let evsA := evs1 ++ evs2 ++ evs3
      if st2.queue.isEmpty || st2.paused then ⟨st2, evsA, none, false⟩
      else if active st2 ≥ st2.max_threads then ⟨st2, evsA, none, false⟩
      else
        match st2.queue with
        | [] => ⟨st2, evsA, none, false⟩
        | j :: rest =>
          let (st3, evs4) := start_job { st2 with queue := rest } j
          ⟨st3, evsA ++ evs4, none, false⟩

/-- One atomic monitor-protected step of the whole system: an Admission
API call, a sleep/wake notification, a shutdown call, or one action of
the coordinator loop (draining `force_start`, admitting one queued job,
or reaping one finished job). -/
inductive Label
  | enq (a : Action) (times : Nat)
  | enqIgnore (a : Action) (times : Nat)
  | prioEnq (a : Action) (force : Bool) (times : Nat)
  | prioEnqRaise (a : Action) (force : Bool) (times : Nat)
  | doPause
  | doResume
  | setMaxT (n : Int)
  | sleep (a : Action)
  | wake (a : Action)
  | drainForce
  | admitJob
  | complete (j : Job)
  | doShutdown
deriving DecidableEq

/-- The transition function of the interleaving semantics.  `none` means
the step is not enabled (its guard fails or its assertion would fire).
`drainForce` and `admitJob` are the coordinator's two ways of starting
jobs (lines 247–250 and 253–266), enabled only while the loop runs;
`admitJob`
requires a non-empty queue, `not paused` and `active < max_threads`,
exactly the gates of `run`.  `complete j` is the reaping of a finished
job whose completion handler returns (success, or terminal failure);
a retryable failure instead raises `NameError` in `_restart_job` (see
`on_job_completed`), killing the coordinator, so it enables no
transition. -/
def apply_label (st : MainLoop) : Label → Option MainLoop
  | .enq a t => some (enqueue st a t)
  | .enqIgnore a t => some (enqueue_or_ignore st a t).2
  | .prioEnq a f t => some (priority_enqueue st a f t)
  | .prioEnqRaise a f t => some (priority_enqueue_or_raise st a f t).2
  | .doPause => some (pause st)
  | .doResume => some (resume st)
  | .setMaxT n => (set_max_threads st (some n)).toOption
  | .sleep a => (action_sleep_notify st a).toOption
  | .wake a => (action_wake_notify st a).toOption
  | .drainForce =>
      if st.shutdown_now then none
      else some { st with force_start := []
                          running_jobs := st.running_jobs ++ st.force_start }
  | .admitJob =>
      if st.shutdown_now then none
      else
        match st.queue with
        | [] => none
        | j :: rest =>
          if st.paused then none
          else if active st ≥ st.max_threads then none
          else some { st with queue := rest
                              running_jobs := st.running_jobs ++ [j] }
  | .complete j =>
      if st.running_jobs.contains j
          && (!j.exc_info || decide (j.failures ≥ j.times)) then
        some { st with running_jobs := st.running_jobs.erase j }
      else none
  | .doShutdown => some (shutdown st).1

/-- Run a list of labelled steps; `none` when a step is not enabled. -/
def run_trace (st : MainLoop) : List Label → Option MainLoop
  | [] => some st
  | l :: ls =>
    match apply_label st l with
    | none => none
    | some st1 => run_trace st1 ls

/-! ### Concrete values used in witnesses and counterexamples -/

def actionA : Action := { name := some "a", hash := 1, ident := 1 }

def actionB : Action := { name := some "b", hash := 2, ident := 2 }

/-- An Action distinct from `actionA` but carrying the same name. -/
def actionA2 : Action := { name := some "a", hash := 9, ident := 9 }

/-- A job whose run just failed for the first time with a budget of two
attempts: `failures = 1 < 2 = times`, so `_on_job_completed` takes the
restart branch. -/
def jobC1 : Job :=
  { action := actionA, name := some "a", times := 2, failures := 1, exc_info := true }

/-- A state in which `jobC1` is the only running job. -/
def stC1 : MainLoop := { initMainLoop with running_jobs := [jobC1] }

/-- A state with one running job bound to `actionA`. -/
def stRunA : MainLoop := { initMainLoop with running_jobs := [createJob actionA 1] }

/-- Like `stRunA`, with `actionA` also marked sleeping. -/
def stSleepA : MainLoop := { stRunA with sleeping_actions := [actionA] }

/-- A shut-down state with one job still pending in the queue. -/
def stShutdownPending : MainLoop :=
  { initMainLoop with shutdown_now := true, queue := [createJob actionA 1] }

/-! ### C1 — the retry path -/

/-- C1: the spec's retry behaviour (re-admit a fresh Job into `running`
after a non-final failure) is the code's clear intent (`_restart_job`,
the "Restarting job" message), but `copy` is neither imported in
`MainLoop.py` nor a builtin, so the restart path raises `NameError`
instead: on a job whose first attempt failed with `times = 2`, the
completion handler fires `job_error` once and then raises, the
coordinator thread dies, and the job is never re-attempted. -/
theorem retry_path_raises_name_error :
    moduleBindings.contains "copy" = false ∧
    jobC1.exc_info = true ∧ jobC1.failures < jobC1.times ∧
    on_job_completed initMainLoop jobC1 =
      (initMainLoop, [WQEvent.job_error actionA], some (.nameError "copy")) ∧
    run_iteration stC1 (fun _ => false) =
      ⟨{ stC1 with running_jobs := [] },
       [WQEvent.job_error actionA], some (.nameError "copy"), false⟩ := by
  refine ⟨by decide, rfl, by decide, by decide, by decide⟩

/-! ### C6 — `wait_until_done` -/

/-- C6 counterexample: in a state where shutdown has been requested but a
job is still queued, the exit predicate of `wait_until_done`'s wait loop
is false — a shutdown does not unblock `wait_until_done`, contrary to the
claim. -/
theorem wait_until_done_ignores_shutdown :
    stShutdownPending.shutdown_now = true ∧
    wait_until_done_returns stShutdownPending = false := by
  decide

/-- C6 (amended): `wait_until_done` returns exactly when `queue`,
`force_start` and `running_jobs` are simultaneously empty and not
before; its wait predicate is unaffected by the shutdown flag, so a
shutdown does not unblock it. -/
theorem wait_until_done_returns_iff_empty (st : MainLoop) :
    (wait_until_done_returns st = true ↔
      st.queue = [] ∧ st.force_start = [] ∧ st.running_jobs = []) ∧
    wait_until_done_returns { st with shutdown_now := true } =
      wait_until_done_returns st := by
  constructor
  · simp [wait_until_done_returns, get_queue_length, Nat.add_eq_zero,
      List.length_eq_zero, and_assoc]
  · rfl

/-! ### C7 — `wait_for` -/

/-- C7: `wait_for` given an integer hash resolves it by scanning `queue`,
`force_start` and `running_jobs` in order for a job whose action has that
hash; it returns immediately (no wait target) exactly when no such job
exists; given an Action it waits for that Action; and the wait loop exits
exactly when no job in the three containers is bound to the Action. -/
theorem wait_for_spec (st : MainLoop) (h : Int) (a : Action) :
    wait_for_target st (.hsh h) =
      ((st.queue ++ st.force_start ++ st.running_jobs).find?
        (fun j => j.action.hash == h)).map (·.action) ∧
    (wait_for_target st (.hsh h) = none ↔ ∀ j ∈ allJobs st, j.action.hash ≠ h) ∧
    wait_for_target st (.act a) = some a ∧
    (wait_for_returns st a = true ↔ ∀ j ∈ allJobs st, j.action ≠ a) := by
  refine ⟨rfl, ?_, rfl, ?_⟩
  · simp [wait_for_target, get_action_from_hash, List.find?_eq_none]
  · simp [wait_for_returns, in_queue, List.elem_iff, List.mem_map]

/-! ### C8 — `set_max_threads` -/

/-- C8 counterexample: `set_max_threads(-1)` does not abort — the only
assertion is `max_threads is not None` — and it silently stores `-1`. -/
theorem set_max_threads_accepts_negative :
    set_max_threads initMainLoop (some (-1)) =
      .ok { initMainLoop with max_threads := -1 } := rfl

/-- C8 (amended): `set_max_threads` asserts only that its argument is not
`None`; every integer argument, negative values included, is accepted
silently and stored as `max_threads`. -/
theorem set_max_threads_stores_any_int (st : MainLoop) (n : Int) :
    set_max_threads st (some n) = .ok { st with max_threads := n } ∧
    set_max_threads st none = .error .assertionError :=
  ⟨rfl, rfl⟩

/-! ### C9 — sleep / wake notifications -/

/-- C9: `_action_sleep_notify` asserts that the action is running and
then appends it to `sleeping_actions`; `_action_wake_notify` asserts that
the action is running and currently sleeping and then removes it; under
the preconditions neither assertion fires. -/
theorem sleep_wake_notify_spec (st : MainLoop) (a : Action) :
    (in_progress st a = true →
      action_sleep_notify st a =
        .ok { st with sleeping_actions := st.sleeping_actions ++ [a] }) ∧
    (in_progress st a = false →
      action_sleep_notify st a = .error .assertionError) ∧
    (in_progress st a = true → st.sleeping_actions.contains a = true →
      action_wake_notify st a =
        .ok { st with sleeping_actions := st.sleeping_actions.erase a }) ∧
    (in_progress st a = false ∨ st.sleeping_actions.contains a = false →
      action_wake_notify st a = .error .assertionError) := by
  refine ⟨fun h1 => ?_, fun h1 => ?_, fun h1 h2 => ?_, fun h1 => ?_⟩
  · simp [action_sleep_notify, h1]
  · simp [action_sleep_notify, h1]
  · simp [action_wake_notify, h1, List.elem_iff.mp h2]
  · rcases h1 with h1 | h1
    · simp [action_wake_notify, h1]
    · cases hp : in_progress st a <;>
        simp [action_wake_notify, hp, h1, List.elem_iff]
      intro hm
      simp [List.elem_iff] at h1
      exact h1 hm

/-- C9 witness: concrete states exercising all four branches of
`sleep_wake_notify_spec`. -/
theorem sleep_wake_notify_spec_witness :
    action_sleep_notify stRunA actionA =
      .ok { stRunA with sleeping_actions := stRunA.sleeping_actions ++ [actionA] } ∧
    action_sleep_notify initMainLoop actionA = .error .assertionError ∧
    action_wake_notify stSleepA actionA =
      .ok { stSleepA with sleeping_actions := stSleepA.sleeping_actions.erase actionA } ∧
    action_wake_notify stRunA actionA = .error .assertionError := by
  refine ⟨?_, ?_, ?_, ?_⟩
  · exact (sleep_wake_notify_spec stRunA actionA).1 (by decide)
  · exact (sleep_wake_notify_spec initMainLoop actionA).2.1 (by decide)
  · exact (sleep_wake_notify_spec stSleepA actionA).2.2.1 (by decide) (by decide)
  · exact (sleep_wake_notify_spec stRunA actionA).2.2.2 (Or.inr (by decide))

/-! ### C3 — `priority_enqueue_or_raise` -/

/-- C3: when a same-named Job is in `force_start` or `running_jobs` the
call returns `False` and changes nothing; when the first same-named Job
is found in the queue, that entry is removed and the replacement Job is
built from *its* bound Action and placed per the flag, returning `False`;
only when no same-named Job exists anywhere does it return `True`, using
the caller's Action. -/
theorem priority_enqueue_or_raise_spec (st : MainLoop) (a : Action)
    (force : Bool) (t : Nat) :
    ((∃ j ∈ st.force_start ++ st.running_jobs, j.name = a.name) →
      priority_enqueue_or_raise st a force t = (false, st)) ∧
    (∀ e, (∀ j ∈ st.force_start ++ st.running_jobs, j.name ≠ a.name) →
      st.queue.find? (fun j => j.name == a.name) = some e →
      e ∈ st.queue ∧ e.name = a.name ∧
      priority_enqueue_or_raise st a force t =
        (false,
          if force then
            { st with queue := st.queue.erase e,
                      force_start := st.force_start ++ [createJob e.action t] }
          else
            { st with queue := createJob e.action t :: st.queue.erase e })) ∧
    ((∀ j ∈ allJobs st, j.name ≠ a.name) →
      priority_enqueue_or_raise st a force t =
        (true,
          if force then
            { st with force_start := st.force_start ++ [createJob a t] }
          else { st with queue := createJob a t :: st.queue })) := by
  refine ⟨fun h => ?_, fun e hno hfind => ?_, fun hnone => ?_⟩
  · obtain ⟨j, hj, hjname⟩ := h
    have hany : (st.force_start ++ st.running_jobs).any
        (fun j => j.name == a.name) = true :=
      List.any_eq_true.mpr ⟨j, hj, by simp [hjname]⟩
    simp [priority_enqueue_or_raise, hany]
  · have hany : (st.force_start ++ st.running_jobs).any
        (fun j => j.name == a.name) = false := by
      rw [List.any_eq_false]
      intro j hj
      simpa using hno j hj
    refine ⟨List.mem_of_find?_eq_some hfind, by simpa using List.find?_some hfind, ?_⟩
    cases force <;> simp [priority_enqueue_or_raise, hany, hfind]
  · have hany : (st.force_start ++ st.running_jobs).any
        (fun j => j.name == a.name) = false := by
      rw [List.any_eq_false]
      intro j hj
      have : j ∈ allJobs st := by
        simp only [allJobs, List.mem_append] at hj ⊢
        tauto
      simpa using hnone j this
    have hfind : st.queue.find? (fun j => j.name == a.name) = none := by
      rw [List.find?_eq_none]
      intro j hj
      have : j ∈ allJobs st := by
        simp only [allJobs, List.mem_append]
        tauto
      simpa using hnone j this
    cases force <;> simp [priority_enqueue_or_raise, hany, hfind]

/-- A state with a single queued Job bound to `actionA`, budget 5. -/
def stC3 : MainLoop := { initMainLoop with queue := [createJob actionA 5] }

/-- C3 witness: re-prioritizing a queued name reuses the queued entry's
Action (`actionA`, not the caller's `actionA2`) and returns `False`;
a fresh name returns `True`; a running name is a `False` no-op. -/
theorem priority_enqueue_or_raise_spec_witness :
    priority_enqueue_or_raise stC3 actionA2 false 1 =
      (false, { stC3 with queue := [createJob actionA 1] }) ∧
    priority_enqueue_or_raise initMainLoop actionA false 1 =
      (true, { initMainLoop with queue := [createJob actionA 1] }) ∧
    priority_enqueue_or_raise stRunA actionA2 false 1 = (false, stRunA) := by
  refine ⟨?_, ?_, ?_⟩
  · have h := (priority_enqueue_or_raise_spec stC3 actionA2 false 1).2.1
      (createJob actionA 5) (by decide) (by decide)
    exact h.2.2.trans (by decide)
  · exact ((priority_enqueue_or_raise_spec initMainLoop actionA false 1).2.2
      (by decide)).trans (by decide)
  · exact (priority_enqueue_or_raise_spec stRunA actionA2 false 1).1
      ⟨createJob actionA 1, by decide, by decide⟩

/-! ### C4 — `enqueue_or_ignore` -/

/-- C4: for an action that has a name, `enqueue_or_ignore` appends a new
Job to the queue tail iff no same-named Job is anywhere in `queue`,
`force_start` or `running_jobs`, returning `True` exactly when it
enqueued; when it enqueued into a state with no same-named Job, exactly
one Job with that name exists afterwards and every further same-named
call is a `False` no-op. -/
theorem enqueue_or_ignore_spec (st : MainLoop) (a : Action) (t : Nat)
    (s : String) (hname : a.name = some s) :
    ((enqueue_or_ignore st a t).1 = true ↔ ∀ j ∈ allJobs st, j.name ≠ a.name) ∧
    ((enqueue_or_ignore st a t).1 = true →
      (enqueue_or_ignore st a t).2 =
        { st with queue := st.queue ++ [createJob a t] }) ∧
    ((enqueue_or_ignore st a t).1 = false → (enqueue_or_ignore st a t).2 = st) ∧
    ((∀ j ∈ allJobs st, j.name ≠ a.name) →
      ((allJobs (enqueue_or_ignore st a t).2).filter
          (fun j => j.name == a.name)).length = 1 ∧
      ∀ a2 t2, a2.name = a.name →
        enqueue_or_ignore (enqueue_or_ignore st a t).2 a2 t2 =
          (false, (enqueue_or_ignore st a t).2)) := by
  simp only [enqueue_or_ignore, get_first_job_from_name, hname]
  cases hf : (allJobs st).find? (fun j => j.name == some s) with
  | none =>
      have hnone : ∀ j ∈ allJobs st, j.name ≠ some s := by
        intro j hj
        have := List.find?_eq_none.mp hf j hj
        simpa using this
      refine ⟨iff_of_true rfl hnone, fun _ => rfl, by simp, fun hall => ⟨?_, ?_⟩⟩
      · have hq : st.queue.filter (fun j => j.name == some s) = [] :=
          List.filter_eq_nil_iff.mpr (fun j hj => by
            simpa using hall j (by simp [allJobs, hj]))
        have hfs : st.force_start.filter (fun j => j.name == some s) = [] :=
          List.filter_eq_nil_iff.mpr (fun j hj => by
            simpa using hall j (by simp [allJobs, hj]))
        have hrun : st.running_jobs.filter (fun j => j.name == some s) = [] :=
          List.filter_eq_nil_iff.mpr (fun j hj => by
            simpa using hall j (by simp [allJobs, hj]))
        simp [allJobs, List.filter_append, hq, hfs, hrun, createJob, hname]
      · intro a2 t2 h2
        simp only [enqueue_or_ignore, get_first_job_from_name, h2]
        have hmem : createJob a t ∈
            allJobs { st with queue := st.queue ++ [createJob a t] } := by
          simp [allJobs]
        have hsome : ((allJobs { st with queue := st.queue ++ [createJob a t] }).find?
            (fun j => j.name == some s)).isSome :=
          List.find?_isSome.mpr ⟨createJob a t, hmem, by simp [createJob, hname]⟩
        cases hf2 : (allJobs { st with queue := st.queue ++ [createJob a t] }).find?
            (fun j => j.name == some s) with
        | none => rw [hf2] at hsome; simp at hsome
        | some x => rfl
  | some j =>
      have hj := List.mem_of_find?_eq_some hf
      have hpj : j.name = some s := by
        have := List.find?_some hf
        simpa using this
      refine ⟨?_, fun h => absurd h (by simp), fun _ => rfl,
        fun hall => absurd hpj (hall j hj)⟩
      constructor
      · intro h
        exact absurd h (by simp)
      · intro hall
        exact absurd hpj (hall j hj)

/-- C4 witness: enqueueing `actionA` into the empty scheduler succeeds;
a second call with the same-named `actionA2` is ignored. -/
theorem enqueue_or_ignore_spec_witness :
    (enqueue_or_ignore initMainLoop actionA 1).1 = true ∧
    enqueue_or_ignore (enqueue_or_ignore initMainLoop actionA 1).2 actionA2 2 =
      (false, (enqueue_or_ignore initMainLoop actionA 1).2) := by
  have h := enqueue_or_ignore_spec initMainLoop actionA 1 "a" rfl
  refine ⟨h.1.mpr (by decide), ?_⟩
  exact (h.2.2.2 (by decide)).2 actionA2 2 rfl

/-! ### C2 — the concurrency limit -/

/-- The steps C2 allows: admissions only through the queue (no
force-start placement) and no concurrency-limit change. -/
def claim_scope (l : Label) : Bool :=
  match l with
  | .prioEnq _ true _ => false
  | .prioEnqRaise _ true _ => false
  | .setMaxT _ => false
  | _ => true

/-- Steps that are not a wake notification. -/
def wake_free (l : Label) : Bool :=
  match l with
  | .wake _ => false
  | _ => true

theorem enqueue_or_ignore_snd_cases (st : MainLoop) (a : Action) (t : Nat) :
    (enqueue_or_ignore st a t).2 = st ∨
    (enqueue_or_ignore st a t).2 = { st with queue := st.queue ++ [createJob a t] } := by
  unfold enqueue_or_ignore
  cases get_first_job_from_name st a.name <;> simp

theorem priority_enqueue_or_raise_snd_cases (st : MainLoop) (a : Action) (t : Nat) :
    (priority_enqueue_or_raise st a false t).2 = st ∨
    ∃ q, (priority_enqueue_or_raise st a false t).2 = { st with queue := q } := by
  by_cases hany : (st.force_start ++ st.running_jobs).any (fun j => j.name == a.name) = true
  · left
    simp [priority_enqueue_or_raise, hany]
  · rw [Bool.not_eq_true] at hany
    cases hfind : st.queue.find? (fun j => j.name == a.name) with
    | none =>
        exact Or.inr ⟨createJob a t :: st.queue,
          by simp [priority_enqueue_or_raise, hany, hfind]⟩
    | some e =>
        exact Or.inr ⟨createJob e.action t :: st.queue.erase e,
          by simp [priority_enqueue_or_raise, hany, hfind]⟩

theorem action_sleep_notify_toOption (st st' : MainLoop) (a : Action)
    (h : (action_sleep_notify st a).toOption = some st') :
    st' = { st with sleeping_actions := st.sleeping_actions ++ [a] } := by
  unfold action_sleep_notify at h
  by_cases hp : in_progress st a
  · simp [hp, Except.toOption] at h
    exact h.symm
  · simp [hp, Except.toOption] at h

theorem action_wake_notify_toOption (st st' : MainLoop) (a : Action)
    (h : (action_wake_notify st a).toOption = some st') :
    st' = { st with sleeping_actions := st.sleeping_actions.erase a } := by
  unfold action_wake_notify at h
  by_cases h1 : in_progress st a
  · by_cases h2 : a ∈ st.sleeping_actions
    · simp [h1, h2, Except.toOption, List.elem_iff] at h
      exact h.symm
    · simp [h1, h2, Except.toOption, List.elem_iff] at h
  · simp [h1, Except.toOption] at h

/-- Inversion of an enabled `admitJob` step: the queue was non-empty,
the loop was running and not paused, the active count was under the
limit, and the head job moved from the queue into `running_jobs`. -/
theorem apply_label_admitJob_some (st st' : MainLoop)
    (h : apply_label st Label.admitJob = some st') :
    ∃ j rest, st.queue = j :: rest ∧ st.shutdown_now = false ∧
      st.paused = false ∧ ¬ active st ≥ st.max_threads ∧
      st' = { st with queue := rest, running_jobs := st.running_jobs ++ [j] } := by
  cases hsd : st.shutdown_now with
  | true =>
      exfalso
      unfold apply_label at h
      rw [hsd] at h
      simp at h
  | false =>
      cases hq : st.queue with
      | nil =>
          exfalso
          unfold apply_label at h
          rw [hsd, hq] at h
          simp at h
      | cons j rest =>
          have h2 : (if st.paused then (none : Option MainLoop)
              else if active st ≥ st.max_threads then none
              else some { st with
                  queue := rest,
                  running_jobs := st.running_jobs ++ [j] }) = some st' := by
            rw [← h]
            unfold apply_label
            rw [hsd, hq]
            rfl
          rw [hsd] at h2
          cases hp : st.paused <;> rw [hp] at h2
          · rw [if_neg (by simp)] at h2
            by_cases hact : active st ≥ st.max_threads
            · rw [if_pos hact] at h2
              exact absurd h2 (by simp)
            · rw [if_neg hact, Option.some.injEq] at h2
              exact ⟨j, rest, rfl, rfl, rfl, hact, h2.symm⟩
          · rw [if_pos rfl] at h2
            exact absurd h2 (by simp)

/-- One allowed step preserves the concurrency invariant
`active ≤ max_threads` (together with the emptiness of `force_start`,
which admissions through the queue never populate). -/
theorem invC2_step (st st' : MainLoop) (l : Label)
    (hc : claim_scope l = true) (hw : wake_free l = true)
    (happ : apply_label st l = some st')
    (hle : active st ≤ st.max_threads) (hfs : st.force_start = []) :
    active st' ≤ st'.max_threads ∧ st'.force_start = [] := by
  cases l with
  | enq a t =>
      simp only [apply_label, Option.some.injEq] at happ
      subst happ
      exact ⟨hle, hfs⟩
  | enqIgnore a t =>
      simp only [apply_label, Option.some.injEq] at happ
      subst happ
      rcases enqueue_or_ignore_snd_cases st a t with h | h <;> rw [h] <;>
        exact ⟨hle, hfs⟩
  | prioEnq a f t =>
      cases f
      · simp only [apply_label, Option.some.injEq] at happ
        subst happ
        exact ⟨hle, hfs⟩
      · simp [claim_scope] at hc
  | prioEnqRaise a f t =>
      cases f
      · simp only [apply_label, Option.some.injEq] at happ
        subst happ
        rcases priority_enqueue_or_raise_snd_cases st a t with h | ⟨q, h⟩ <;>
          rw [h] <;> exact ⟨hle, hfs⟩
      · simp [claim_scope] at hc
  | doPause =>
      simp only [apply_label, Option.some.injEq] at happ
      subst happ
      exact ⟨hle, hfs⟩
  | doResume =>
      simp only [apply_label, Option.some.injEq] at happ
      subst happ
      exact ⟨hle, hfs⟩
  | setMaxT n => simp [claim_scope] at hc
  | sleep a =>
      have h := action_sleep_notify_toOption st st' a happ
      subst h
      refine ⟨?_, hfs⟩
      simp only [active] at hle ⊢
      simp only [List.length_append, List.length_cons, List.length_nil]
      push_cast
      omega
  | wake a => simp [wake_free] at hw
  | drainForce =>
      simp only [apply_label] at happ
      cases hsd : st.shutdown_now <;> rw [hsd] at happ <;> simp at happ
      subst happ
      rw [hfs]
      exact ⟨by simpa [active] using hle, rfl⟩
  | admitJob =>
      obtain ⟨j, rest, hq, hsd, hp, hact, h⟩ := apply_label_admitJob_some st st' happ
      subst h
      refine ⟨?_, hfs⟩
      simp only [active] at hact ⊢
      simp only [List.length_append, List.length_cons, List.length_nil]
      push_cast
      omega
  | complete j =>
      simp only [apply_label] at happ
      by_cases hg : (st.running_jobs.contains j
          && (!j.exc_info || decide (j.failures ≥ j.times))) = true
      · rw [if_pos hg, Option.some.injEq] at happ
        subst happ
        refine ⟨?_, hfs⟩
        have hg2 := hg
        rw [Bool.and_eq_true] at hg2
        have hmem : j ∈ st.running_jobs := List.elem_iff.mp hg2.1
        have hpos : 0 < st.running_jobs.length := List.length_pos_of_mem hmem
        have hlen : (st.running_jobs.erase j).length = st.running_jobs.length - 1 :=
          List.length_erase_of_mem hmem
        simp only [active] at hle ⊢
        rw [hlen]
        omega
      · rw [if_neg hg] at happ
        exact absurd happ (by simp)
  | doShutdown =>
      simp only [apply_label, Option.some.injEq] at happ
      subst happ
      exact ⟨hle, hfs⟩

/-- The invariant holds along every allowed trace. -/
theorem run_trace_invC2 (ls : List Label) (st0 st : MainLoop)
    (hc : ls.all (fun l => claim_scope l && wake_free l) = true)
    (hrun : run_trace st0 ls = some st)
    (hle : active st0 ≤ st0.max_threads) (hfs : st0.force_start = []) :
    active st ≤ st.max_threads ∧ st.force_start = [] := by
  induction ls generalizing st0 with
  | nil =>
      simp only [run_trace, Option.some.injEq] at hrun
      subst hrun
      exact ⟨hle, hfs⟩
  | cons l ls ih =>
      simp only [List.all_cons, Bool.and_eq_true] at hc
      unfold run_trace at hrun
      cases happ : apply_label st0 l with
      | none => rw [happ] at hrun; simp at hrun
      | some st1 =>
          rw [happ] at hrun
          have hstep := invC2_step st0 st1 l hc.1.1 hc.1.2 happ hle hfs
          exact ih st1 hc.2 hrun hstep.1 hstep.2

/-- C2 (amended): for every trace from the initial state whose admissions
go only through the queue (no force-start placement), with no
concurrency-limit change and *no wake notification*, the active count
`|running| − |sleeping|` never exceeds `max_threads` at any reachable
state.  (The claim as stated, which also admits wake notifications,
is refuted by `active_exceeds_limit_after_wake`.) -/
theorem active_never_exceeds_limit_without_wake (ls : List Label) (st : MainLoop)
    (hscope : ls.all (fun l => claim_scope l && wake_free l) = true)
    (hrun : run_trace initMainLoop ls = some st) :
    active st ≤ st.max_threads :=
  (run_trace_invC2 ls initMainLoop st hscope hrun (by decide) rfl).1

/-- The state reached from `initMainLoop` by
`resume; enqueue actionA; admit`. -/
def stC2w : MainLoop :=
  { initMainLoop with
      paused := false,
      running_jobs := [createJob actionA 1] }

/-- C2 witness: the invariant evaluated on the concrete trace
`resume; enqueue actionA; admit`. -/
theorem active_never_exceeds_limit_without_wake_witness :
    active stC2w ≤ stC2w.max_threads :=
  active_never_exceeds_limit_without_wake
    [Label.doResume, Label.enq actionA 1, Label.admitJob] stC2w
    (by decide) (by decide)

/-- The trace refuting C2 as stated: `actionA` is admitted, goes to
sleep, a second job is admitted while it sleeps, and then it wakes. -/
def traceC2 : List Label :=
  [Label.doResume, Label.enq actionA 1, Label.enq actionB 1, Label.admitJob,
   Label.sleep actionA, Label.admitJob, Label.wake actionA]

/-- The state reached by `traceC2`: two running jobs, none sleeping,
`max_threads = 1`. -/
def stC2bad : MainLoop :=
  { initMainLoop with
      paused := false,
      running_jobs := [createJob actionA 1, createJob actionB 1] }

/-- C2 counterexample: a trace whose admissions go only through `enqueue`
(no force-start, no concurrency-limit change) reaches a quiescent state
in which `|running| − |sleeping| = 2 > 1 = max_threads`: a sleeping
action does not count against the limit, so another job is admitted, and
waking revives the first without any re-check of the limit. -/
theorem active_exceeds_limit_after_wake :
    traceC2.all claim_scope = true ∧
    run_trace initMainLoop traceC2 = some stC2bad ∧
    stC2bad.max_threads < active stC2bad := by
  refine ⟨by decide, by decide, by decide⟩

/-! ### C5 — `shutdown` -/

/-- Every field of the state other than `queue` and `force_start` is left
unchanged by `priority_enqueue_or_raise`. -/
theorem priority_enqueue_or_raise_snd_fields (st : MainLoop) (a : Action)
    (f : Bool) (t : Nat) :
    (priority_enqueue_or_raise st a f t).2.running_jobs = st.running_jobs ∧
    (priority_enqueue_or_raise st a f t).2.sleeping_actions = st.sleeping_actions ∧
    (priority_enqueue_or_raise st a f t).2.paused = st.paused ∧
    (priority_enqueue_or_raise st a f t).2.shutdown_now = st.shutdown_now ∧
    (priority_enqueue_or_raise st a f t).2.max_threads = st.max_threads := by
  by_cases hany : (st.force_start ++ st.running_jobs).any
      (fun j => j.name == a.name) = true
  · simp [priority_enqueue_or_raise, hany]
  · rw [Bool.not_eq_true] at hany
    cases hfind : st.queue.find? (fun j => j.name == a.name) <;>
      cases f <;> simp [priority_enqueue_or_raise, hany, hfind]

/-- Inversion of an enabled `drainForce` step: the loop was running, and
the whole `force_start` list moved into `running_jobs`. -/
theorem apply_label_drainForce_some (st st' : MainLoop)
    (h : apply_label st Label.drainForce = some st') :
    st.shutdown_now = false ∧
    st' = { st with force_start := [],
                    running_jobs := st.running_jobs ++ st.force_start } := by
  cases hsd : st.shutdown_now with
  | true =>
      exfalso
      unfold apply_label at h
      rw [hsd] at h
      simp at h
  | false =>
      unfold apply_label at h
      rw [hsd] at h
      rw [if_neg (by simp), Option.some.injEq] at h
      exact ⟨rfl, h.symm⟩

/-- `shutdown_now` is a one-way latch: no step of the system resets it. -/
theorem apply_label_shutdown_now_mono (st st' : MainLoop) (l : Label)
    (happ : apply_label st l = some st') (hs : st.shutdown_now = true) :
    st'.shutdown_now = true := by
  cases l with
  | enq a t =>
      simp only [apply_label, Option.some.injEq] at happ
      subst happ
      exact hs
  | enqIgnore a t =>
      simp only [apply_label, Option.some.injEq] at happ
      subst happ
      rcases enqueue_or_ignore_snd_cases st a t with h | h <;> rw [h] <;> exact hs
  | prioEnq a f t =>
      simp only [apply_label, Option.some.injEq] at happ
      subst happ
      cases f <;> exact hs
  | prioEnqRaise a f t =>
      simp only [apply_label, Option.some.injEq] at happ
      subst happ
      rw [(priority_enqueue_or_raise_snd_fields st a f t).2.2.2.1]
      exact hs
  | doPause =>
      simp only [apply_label, Option.some.injEq] at happ
      subst happ
      exact hs
  | doResume =>
      simp only [apply_label, Option.some.injEq] at happ
      subst happ
      exact hs
  | setMaxT n =>
      simp only [apply_label, set_max_threads, Except.toOption,
        Option.some.injEq] at happ
      subst happ
      exact hs
  | sleep a =>
      have h := action_sleep_notify_toOption st st' a happ
      subst h
      exact hs
  | wake a =>
      have h := action_wake_notify_toOption st st' a happ
      subst h
      exact hs
  | drainForce =>
      obtain ⟨hsd, _⟩ := apply_label_drainForce_some st st' happ
      rw [hsd] at hs
      exact absurd hs (by simp)
  | admitJob =>
      obtain ⟨j, rest, hq, hsd, _, _, _⟩ := apply_label_admitJob_some st st' happ
      rw [hsd] at hs
      exact absurd hs (by simp)
  | complete j =>
      simp only [apply_label] at happ
      by_cases hg : (st.running_jobs.contains j
          && (!j.exc_info || decide (j.failures ≥ j.times))) = true
      · rw [if_pos hg, Option.some.injEq] at happ
        subst happ
        exact hs
      · rw [if_neg hg] at happ
        exact absurd happ (by simp)
  | doShutdown =>
      simp only [apply_label, Option.some.injEq] at happ
      subst happ
      rfl

/-- C5: `shutdown` sets the one-way `shutdown_now` latch (no later step
of the system resets it) and joins exactly the jobs that were running at
the time of the call; once the flag is set, the coordinator's next
iteration exits immediately — it fires no event, starts no queued or
force-started job, and leaves them in place, discarded. -/
theorem shutdown_spec (st : MainLoop) (alive : Job → Bool) :
    (shutdown st).1 = { st with shutdown_now := true } ∧
    (shutdown st).2 = st.running_jobs ∧
    run_iteration (shutdown st).1 alive =
      ⟨{ st with shutdown_now := true }, [], none, true⟩ ∧
    (∀ l st2, apply_label (shutdown st).1 l = some st2 →
      st2.shutdown_now = true) :=
  ⟨rfl, rfl, rfl, fun _ _ h => apply_label_shutdown_now_mono _ _ _ h rfl⟩

/-- A state with one queued and one running job. -/
def stW5 : MainLoop :=
  { initMainLoop with
      queue := [createJob actionA 1],
      running_jobs := [createJob actionB 1] }

/-- C5 witness: shutting down `stW5` joins its one running job, the next
loop iteration exits without events, and a subsequent `pause` step keeps
the latch set. -/
theorem shutdown_spec_witness :
    run_iteration (shutdown stW5).1 (fun _ => true) =
      ⟨{ stW5 with shutdown_now := true }, [], none, true⟩ ∧
    (shutdown stW5).2 = [createJob actionB 1] ∧
    (pause (shutdown stW5).1).shutdown_now = true := by
  have h := shutdown_spec stW5 (fun _ => true)
  refine ⟨h.2.2.1, h.2.1.trans (by decide), ?_⟩
  exact h.2.2.2 Label.doPause (pause (shutdown stW5).1) (by decide)

/-! ### C10 — the initial paused state -/

/-- Steps that are not a `resume` call. -/
def resume_free (l : Label) : Bool :=
  match l with
  | .doResume => false
  | _ => true

/-- No step other than `resume` clears the pause flag. -/
theorem apply_label_paused_mono (st st' : MainLoop) (l : Label)
    (hrf : resume_free l = true)
    (happ : apply_label st l = some st') (hp : st.paused = true) :
    st'.paused = true := by
  cases l with
  | enq a t =>
      simp only [apply_label, Option.some.injEq] at happ
      subst happ
      exact hp
  | enqIgnore a t =>
      simp only [apply_label, Option.some.injEq] at happ
      subst happ
      rcases enqueue_or_ignore_snd_cases st a t with h | h <;> rw [h] <;> exact hp
  | prioEnq a f t =>
      simp only [apply_label, Option.some.injEq] at happ
      subst happ
      cases f <;> exact hp
  | prioEnqRaise a f t =>
      simp only [apply_label, Option.some.injEq] at happ
      subst happ
      rw [(priority_enqueue_or_raise_snd_fields st a f t).2.2.1]
      exact hp
  | doPause =>
      simp only [apply_label, Option.some.injEq] at happ
      subst happ
      rfl
  | doResume => simp [resume_free] at hrf
  | setMaxT n =>
      simp only [apply_label, set_max_threads, Except.toOption,
        Option.some.injEq] at happ
      subst happ
      exact hp
  | sleep a =>
      have h := action_sleep_notify_toOption st st' a happ
      subst h
      exact hp
  | wake a =>
      have h := action_wake_notify_toOption st st' a happ
      subst h
      exact hp
  | drainForce =>
      obtain ⟨_, h⟩ := apply_label_drainForce_some st st' happ
      subst h
      exact hp
  | admitJob =>
      obtain ⟨j, rest, hq, hsd, hpf, _, _⟩ := apply_label_admitJob_some st st' happ
      exact absurd (hp.symm.trans hpf) (by simp)
  | complete j =>
      simp only [apply_label] at happ
      by_cases hg : (st.running_jobs.contains j
          && (!j.exc_info || decide (j.failures ≥ j.times))) = true
      · rw [if_pos hg, Option.some.injEq] at happ
        subst happ
        exact hp
      · rw [if_neg hg] at happ
        exact absurd happ (by simp)
  | doShutdown =>
      simp only [apply_label, Option.some.injEq] at happ
      subst happ
      exact hp

/-- The pause flag survives every resume-free trace. -/
theorem run_trace_paused (ls : List Label) (st0 st : MainLoop)
    (hrf : ls.all resume_free = true)
    (hrun : run_trace st0 ls = some st) (hp : st0.paused = true) :
    st.paused = true := by
  induction ls generalizing st0 with
  | nil =>
      simp only [run_trace, Option.some.injEq] at hrun
      subst hrun
      exact hp
  | cons l ls ih =>
      simp only [List.all_cons, Bool.and_eq_true] at hrf
      unfold run_trace at hrun
      cases happ : apply_label st0 l with
      | none => rw [happ] at hrun; simp at hrun
      | some st1 =>
          rw [happ] at hrun
          exact ih st1 hrf.2 hrun (apply_label_paused_mono st0 st1 l hrf.1 happ hp)

/-- While the pause flag is set, the coordinator never admits a queued
job. -/
theorem admitJob_disabled_of_paused (st : MainLoop) (hp : st.paused = true) :
    apply_label st Label.admitJob = none := by
  cases h : apply_label st Label.admitJob with
  | none => rfl
  | some st' =>
      obtain ⟨j, rest, hq, hsd, hpf, _, _⟩ := apply_label_admitJob_some st st' h
      exact absurd (hp.symm.trans hpf) (by simp)

/-- The force-start drain of `run`: each job of the list is appended to
`running_jobs` in order and fires one `job_started` event. -/
theorem start_all_spec (jobs : List Job) : ∀ st : MainLoop,
    start_all st jobs =
      ({ st with running_jobs := st.running_jobs ++ jobs },
       jobs.map (fun j => WQEvent.job_started j.action)) := by
  induction jobs with
  | nil =>
      intro st
      simp [start_all]
  | cons j rest ih =>
      intro st
      simp [start_all, start_job, ih, List.append_assoc]

/-- With every running job still alive, the reap phase is a no-op. -/
theorem update_running_all_alive (st : MainLoop) :
    update_running_jobs st (fun _ => true) = (st, [], none) := by
  unfold update_running_jobs
  simp [List.filter_true, reap]

/-- A paused, not-shut-down iteration of `run` with no finished job:
`force_start` is drained into `running_jobs` (each drained job fires
`job_started`) regardless of the pause flag, the queue-empty event fires
when the combined length is zero, and nothing is admitted from the
queue. -/
theorem run_iteration_paused (st : MainLoop) (hsd : st.shutdown_now = false)
    (hp : st.paused = true) :
    run_iteration st (fun _ => true) =
      ⟨{ st with force_start := [],
                 running_jobs := st.running_jobs ++ st.force_start },
       (if get_queue_length st == 0 then [WQEvent.queue_empty] else []) ++
         st.force_start.map (fun j => WQEvent.job_started j.action),
       none, false⟩ := by
  unfold run_iteration
  rw [hsd, update_running_all_alive]
  simp [start_all_spec, hp, hsd]

/-- C10: a freshly constructed scheduler starts with `paused = true` and
`max_threads = 1`; along any trace that never calls `resume`, the pause
flag stays set and the admission step is never enabled, so no normally
enqueued Job is ever admitted from the queue — while force-started jobs
are still drained and started by the loop even when paused. -/
theorem init_paused_spec :
    initMainLoop.paused = true ∧ initMainLoop.max_threads = 1 ∧
    (∀ ls st, ls.all resume_free = true → run_trace initMainLoop ls = some st →
      st.paused = true ∧ apply_label st Label.admitJob = none) ∧
    (∀ st : MainLoop, st.shutdown_now = false → st.paused = true →
      run_iteration st (fun _ => true) =
        ⟨{ st with force_start := [],
                   running_jobs := st.running_jobs ++ st.force_start },
         (if get_queue_length st == 0 then [WQEvent.queue_empty] else []) ++
           st.force_start.map (fun j => WQEvent.job_started j.action),
         none, false⟩) := by
  refine ⟨rfl, rfl, fun ls st hrf hrun => ?_,
    fun st hsd hp => run_iteration_paused st hsd hp⟩
  have hp := run_trace_paused ls initMainLoop st hrf hrun rfl
  exact ⟨hp, admitJob_disabled_of_paused st hp⟩

/-- A paused initial-like state with one force-started job. -/
def stW10 : MainLoop := { initMainLoop with force_start := [createJob actionA 1] }

/-- C10 witness: after a plain `enqueue` the scheduler is still paused
and admission is disabled; an iteration on `stW10` starts the
force-started job while paused. -/
theorem init_paused_spec_witness :
    (enqueue initMainLoop actionB 1).paused = true ∧
    apply_label (enqueue initMainLoop actionB 1) Label.admitJob = none ∧
    run_iteration stW10 (fun _ => true) =
      ⟨{ stW10 with force_start := [], running_jobs := [createJob actionA 1] },
       [WQEvent.job_started actionA], none, false⟩ := by
  have h2 := init_paused_spec.2.2.1 [Label.enq actionB 1]
    (enqueue initMainLoop actionB 1) (by decide) (by decide)
  refine ⟨h2.1, h2.2, ?_⟩
  exact (init_paused_spec.2.2.2 stW10 rfl rfl).trans (by decide)

end Exscript
